import Mathlib

/-!
Verification development for the dokktor deployment control plane.

The definitions below are a shallow embedding of the TypeScript sources:
  * `backend/src/services/port.service.ts`   (port allocator, Docker log codec)
  * `backend/src/services/app.service.ts`    (git URL building, SSH provisioning,
                                              deployment pipeline, app CRUD)
JavaScript `Map` objects are modelled as insertion-ordered association lists,
`async` I/O probes (`isPortAvailable`) as a boolean oracle parameter, wall-clock
timestamps as an explicit `now : String` parameter, and exceptions as `Except`.
-/

set_option maxRecDepth 4000

namespace Docktor

/-! ## Port allocator: data model (types from `types` / `port.service.ts`) -/

/-- One entry of the allocator's `Map<number, PortAllocation>` (interface
`PortAllocation`): `port` is the map key, duplicated in the value. -/
structure PortAllocation where
  port : Nat
  appId : String
  appName : String
  allocatedAt : String
deriving DecidableEq, Repr

/-- Interface `PortRange`.  The source field `end` is a Lean keyword and is
rendered `stop`. -/
structure PortRange where
  start : Nat
  stop : Nat
deriving DecidableEq, Repr

/-- `DEFAULT_PORT_RANGE` from `port.service.ts`. -/
def DEFAULT_PORT_RANGE : PortRange := ⟨10000, 20000⟩

/-- In-memory state of `PortManagerService`: the `allocations` map (modelled as
an insertion-ordered list keyed by `.port`) and the configured `portRange`. -/
structure PortState where
  allocations : List PortAllocation
  portRange : PortRange
deriving DecidableEq, Repr

/-- `this.allocations.get(p)` on the insertion-ordered map model. -/
def mapGet (l : List PortAllocation) (p : Nat) : Option PortAllocation :=
  l.find? fun a => a.port = p

/-- `this.allocations.has(p)`. -/
def mapHas (l : List PortAllocation) (p : Nat) : Bool :=
  l.any fun a => a.port = p

/-- `this.allocations.set(a.port, a)`: replace in place when the key exists,
append otherwise (JS `Map` insertion-order semantics). -/
def mapSet (l : List PortAllocation) (a : PortAllocation) : List PortAllocation :=
  if mapHas l a.port then l.map (fun b => if b.port = a.port then a else b)
  else l ++ [a]

/-- `this.allocations.delete(p)`. -/
def mapDelete (l : List PortAllocation) (p : Nat) : List PortAllocation :=
  l.filter fun a => a.port ≠ p

/-! ## Port allocator: operations

`isPortAvailable` performs a real OS bind probe; it is modelled by the oracle
`osFree : Nat → Bool`.  `saveAllocations` only mirrors the in-memory state to
disk and is not modelled separately. -/

/-- `findAvailablePort`: scan `portRange.start .. portRange.end` ascending,
skip ports present in the allocation map, return the first OS-free port;
`none` models the thrown `Error('Aucun port disponible dans la plage
configuree')`. -/
def findAvailablePort (st : PortState) (osFree : Nat → Bool) : Option Nat :=
  (List.range' st.portRange.start (st.portRange.stop + 1 - st.portRange.start)).find?
    fun p => !mapHas st.allocations p && osFree p

/-- The `for (const [port, allocation] of this.allocations)` loop inside
`allocatePort`: walk the map in insertion order; on the first entry owned by
`appId` whose port is still OS-free, stop and return that port; entries owned
by `appId` whose port is no longer free are deleted (lazy eviction) and the
walk continues.  Returns the found port (if any) and the map after the
deletions performed up to that point. -/
def evictScan (osFree : Nat → Bool) (appId : String) :
    List PortAllocation → Option Nat × List PortAllocation
  | [] => (none, [])
  | a :: rest =>
    if a.appId = appId then
      if osFree a.port then (some a.port, a :: rest)
      else evictScan osFree appId rest
    else
      let r := evictScan osFree appId rest
      (r.1, a :: r.2)

/-- Condition under which `allocatePort`'s preferred-port branch grants the
preferred port `p` as a fresh allocation: `p` unallocated, inside the range,
and OS-free (source: `preferredPort >= this.portRange.start &&
preferredPort <= this.portRange.end && !existingAllocation` plus the
`isPortAvailable` probe). -/
def freshGrantFires (st : PortState) (osFree : Nat → Bool) (p : Nat) : Bool :=
  (mapGet st.allocations p).isNone
    && decide (st.portRange.start ≤ p) && decide (p ≤ st.portRange.stop) && osFree p

/-- Error message of the `findAvailablePort` throw. -/
def portExhaustedMsg : String := "Aucun port disponible dans la plage configuree"

/-- The part of `allocatePort` after the preferred-port block (reached either
when no preferred port is given or when the preferred-port block falls
through): the lazy-eviction loop over existing allocations, then
`findAvailablePort` plus `set` on a fresh port, else the propagated
port-exhausted error. -/
def allocateFallback (st : PortState) (osFree : Nat → Bool) (now : String)
    (appId appName : String) : Except String Nat × PortState :=
  match (evictScan osFree appId st.allocations).1 with
  | some port => (.ok port, { st with allocations := (evictScan osFree appId st.allocations).2 })
  | none =>
    match findAvailablePort { st with allocations := (evictScan osFree appId st.allocations).2 } osFree with
    | some port =>
      (.ok port,
       { st with allocations := mapSet (evictScan osFree appId st.allocations).2 ⟨port, appId, appName, now⟩ })
    | none => (.error portExhaustedMsg, { st with allocations := (evictScan osFree appId st.allocations).2 })

/-- `allocatePort(appId, appName, preferredPort?)`.  Returns the result
(`.error` models the propagated exception) together with the in-memory map
state after the call.  The source writes the fallback path once after the
preferred-port `if` block; here that shared suffix is the named function
`allocateFallback`, invoked from both fall-through points. -/
def allocatePort (st : PortState) (osFree : Nat → Bool) (now : String)
    (appId appName : String) (preferredPort : Option Nat) :
    Except String Nat × PortState :=
  match preferredPort with
  | none => allocateFallback st osFree now appId appName
  | some p =>
    if (match mapGet st.allocations p with | some a => a.appId == appId | none => false : Bool) then
      (.ok p, st)
    else if freshGrantFires st osFree p then
      (.ok p, { st with allocations := mapSet st.allocations ⟨p, appId, appName, now⟩ })
    else allocateFallback st osFree now appId appName

/-- `releasePort(appId)`: delete the first allocation owned by `appId`
(the source loop `break`s after one deletion). -/
def releaseFirst (appId : String) : List PortAllocation → List PortAllocation
  | [] => []
  | a :: rest => if a.appId = appId then rest else a :: releaseFirst appId rest

/-- `releasePort(appId)`. -/
def releasePort (st : PortState) (appId : String) : PortState :=
  { st with allocations := releaseFirst appId st.allocations }

/-- `getPortForApp(appId)`: first allocation owned by `appId`, if any. -/
def getPortForApp (st : PortState) (appId : String) : Option Nat :=
  (st.allocations.find? fun a => a.appId = appId).map (·.port)

/-- `setPortRange(range)`. -/
def setPortRange (st : PortState) (range : PortRange) : PortState :=
  { st with portRange := range }

/-- `cleanupAllocations(existingAppIds)`: drop allocations whose owner is not
in the given id list. -/
def cleanupAllocations (st : PortState) (existingAppIds : List String) : PortState :=
  { st with allocations := st.allocations.filter fun a => existingAppIds.contains a.appId }

/-! ## Port allocator: invariant -/

/-- Invariant on the allocation map: at most one allocation per port and at
most one allocation per `appId`. -/
def InvAlloc (l : List PortAllocation) : Prop :=
  (l.map (·.port)).Nodup ∧ (l.map (·.appId)).Nodup

instance (l : List PortAllocation) : Decidable (InvAlloc l) := by
  unfold InvAlloc; infer_instance

/-- The §3 `PortAllocation` invariant on an allocator state. -/
def PortInvariant (st : PortState) : Prop :=
  InvAlloc st.allocations

instance (st : PortState) : Decidable (PortInvariant st) := by
  unfold PortInvariant; infer_instance

/-! ### Invariant-preservation lemmas -/

theorem InvAlloc.of_sublist {l' l : List PortAllocation}
    (h : List.Sublist l' l) (hi : InvAlloc l) : InvAlloc l' :=
  ⟨hi.1.sublist (h.map _), hi.2.sublist (h.map _)⟩

/-- Appending a fresh entry whose port and owner are both absent keeps the
invariant. -/
theorem InvAlloc.append_fresh {l : List PortAllocation} {a : PortAllocation}
    (hi : InvAlloc l)
    (hport : ∀ b ∈ l, b.port ≠ a.port)
    (happ : ∀ b ∈ l, b.appId ≠ a.appId) :
    InvAlloc (l ++ [a]) := by
  constructor
  · rw [List.map_append, List.nodup_append]
    refine ⟨hi.1, List.nodup_singleton _, ?_⟩
    intro x hx
    simp only [List.mem_map] at hx
    obtain ⟨b, hb, rfl⟩ := hx
    simp only [List.map_cons, List.map_nil, List.mem_singleton]
    exact hport b hb
  · rw [List.map_append, List.nodup_append]
    refine ⟨hi.2, List.nodup_singleton _, ?_⟩
    intro x hx
    simp only [List.mem_map] at hx
    obtain ⟨b, hb, rfl⟩ := hx
    simp only [List.map_cons, List.map_nil, List.mem_singleton]
    exact happ b hb

theorem releaseFirst_sublist (appId : String) (l : List PortAllocation) :
    List.Sublist (releaseFirst appId l) l := by
  induction l with
  | nil => simp [releaseFirst]
  | cons a rest ih =>
    by_cases h : a.appId = appId
    · simp [releaseFirst, h]
    · simpa [releaseFirst, h] using ih.cons₂ a

theorem evictScan_sublist (osFree : Nat → Bool) (appId : String)
    (l : List PortAllocation) :
    List.Sublist (evictScan osFree appId l).2 l := by
  induction l with
  | nil => simp [evictScan]
  | cons a rest ih =>
    by_cases h : a.appId = appId
    · by_cases hf : osFree a.port
      · simp [evictScan, h, hf]
      · simpa [evictScan, h, hf] using ih.trans (List.sublist_cons_self a rest)
    · simpa [evictScan, h] using ih.cons₂ a

/-- When the lazy-eviction loop finds nothing to reuse, every allocation owned
by the app was evicted: no entry of the resulting map is owned by `appId`. -/
theorem evictScan_none_not_owned (osFree : Nat → Bool) (appId : String)
    (l : List PortAllocation)
    (hnone : (evictScan osFree appId l).1 = none) :
    ∀ a ∈ (evictScan osFree appId l).2, a.appId ≠ appId := by
  induction l with
  | nil => simp [evictScan]
  | cons a rest ih =>
    by_cases h : a.appId = appId
    · by_cases hf : osFree a.port
      · simp [evictScan, h, hf] at hnone
      · simp only [evictScan, h, if_true, hf, Bool.false_eq_true, if_false] at hnone ⊢
        exact ih hnone
    · simp only [evictScan, h, if_false] at hnone ⊢
      intro b hb
      rcases List.mem_cons.mp hb with hba | hbrest
      · exact hba ▸ h
      · exact ih hnone b hbrest

/-- The eviction loop returns the first live allocation owned by the app, and
in that case leaves the map untouched. -/
theorem evictScan_found (osFree : Nat → Bool) (appId : String)
    (l : List PortAllocation) (a : PortAllocation)
    (hfind : l.find? (fun b => b.appId = appId) = some a)
    (hfree : osFree a.port = true) :
    evictScan osFree appId l = (some a.port, l) := by
  induction l with
  | nil => simp at hfind
  | cons b rest ih =>
    by_cases h : b.appId = appId
    · rw [List.find?_cons_of_pos _ (by simpa using h)] at hfind
      cases hfind
      simp [evictScan, h, hfree]
    · rw [List.find?_cons_of_neg _ (by simpa using h)] at hfind
      simp [evictScan, h, ih hfind]

theorem mapGet_none_not_mem {l : List PortAllocation} {p : Nat}
    (h : mapGet l p = none) : ∀ a ∈ l, a.port ≠ p := by
  intro a ha
  have := List.find?_eq_none.mp h a ha
  simpa using this

theorem mapHas_false_of_mapGet_none {l : List PortAllocation} {p : Nat}
    (h : mapGet l p = none) : mapHas l p = false := by
  simp only [mapHas, List.any_eq_false, decide_eq_true_eq]
  exact mapGet_none_not_mem h

theorem mapSet_of_not_has {l : List PortAllocation} {a : PortAllocation}
    (h : mapHas l a.port = false) : mapSet l a = l ++ [a] := by
  simp [mapSet, h]

theorem mapHas_false_not_mem {l : List PortAllocation} {p : Nat}
    (h : mapHas l p = false) : ∀ a ∈ l, a.port ≠ p := by
  intro a ha
  simp only [mapHas, List.any_eq_false, decide_eq_true_eq] at h
  exact h a ha

theorem findAvailablePort_free {st : PortState} {osFree : Nat → Bool} {q : Nat}
    (h : findAvailablePort st osFree = some q) :
    mapHas st.allocations q = false ∧ osFree q = true := by
  have := List.find?_some h
  simp only [Bool.and_eq_true, Bool.not_eq_true'] at this
  exact this

/-- The fallback path of `allocatePort` (no effective preferred port) always
preserves the allocation invariant. -/
theorem invAlloc_allocateFallback (st : PortState) (osFree : Nat → Bool)
    (now appId appName : String) (hinv : InvAlloc st.allocations) :
    InvAlloc (allocateFallback st osFree now appId appName).2.allocations := by
  have hsub := evictScan_sublist osFree appId st.allocations
  have hscan : InvAlloc (evictScan osFree appId st.allocations).2 :=
    InvAlloc.of_sublist hsub hinv
  unfold allocateFallback
  cases hfound : (evictScan osFree appId st.allocations).1 with
  | some port => exact hscan
  | none =>
    cases hfind : findAvailablePort
        { st with allocations := (evictScan osFree appId st.allocations).2 } osFree with
    | none => exact hscan
    | some q =>
      have hfree := findAvailablePort_free hfind
      have hfree1 : mapHas (evictScan osFree appId st.allocations).2 q = false := hfree.1
      have hfree2 : mapHas (evictScan osFree appId st.allocations).2
          (PortAllocation.mk q appId appName now).port = false := hfree1
      show InvAlloc (mapSet (evictScan osFree appId st.allocations).2 ⟨q, appId, appName, now⟩)
      rw [mapSet_of_not_has hfree2]
      exact hscan.append_fresh
        (fun b hb => mapHas_false_not_mem hfree1 b hb)
        (fun b hb => evictScan_none_not_owned osFree appId st.allocations hfound b hb)

/-- `allocatePort` preserves the invariant provided the preferred-port branch
does not grant a fresh port to an app that already owns one. -/
theorem invAlloc_allocatePort (st : PortState) (osFree : Nat → Bool)
    (now appId appName : String) (pref : Option Nat)
    (hinv : InvAlloc st.allocations)
    (hpref : ∀ p, pref = some p → freshGrantFires st osFree p = true →
      ∀ a ∈ st.allocations, a.appId ≠ appId) :
    InvAlloc (allocatePort st osFree now appId appName pref).2.allocations := by
  cases pref with
  | none => exact invAlloc_allocateFallback st osFree now appId appName hinv
  | some p =>
    unfold allocatePort
    by_cases howned : (match mapGet st.allocations p with
        | some a => a.appId == appId | none => false : Bool) = true
    · simp only [howned, if_true]
      exact hinv
    · simp only [Bool.not_eq_true] at howned
      simp only [howned, Bool.false_eq_true, if_false]
      by_cases hgrant : freshGrantFires st osFree p = true
      · simp only [hgrant, if_true]
        have hget : mapGet st.allocations p = none := by
          have h2 := hgrant
          simp only [freshGrantFires, Bool.and_eq_true, Option.isNone_iff_eq_none] at h2
          exact h2.1.1.1
        rw [mapSet_of_not_has (mapHas_false_of_mapGet_none hget)]
        exact hinv.append_fresh
          (fun b hb => mapGet_none_not_mem hget b hb)
          (fun b hb => hpref p rfl hgrant b hb)
      · simp only [Bool.not_eq_true] at hgrant
        simp only [hgrant, Bool.false_eq_true, if_false]
        exact invAlloc_allocateFallback st osFree now appId appName hinv

/-! ## Claim C3: allocator invariant preservation -/

/-- A well-formed allocator state in which app `app-a` already holds port
10005, with the default range and every port OS-free.  Used by the C3, C5 and
C6 analyses. -/
def exampleHeldState : PortState :=
  ⟨[⟨10005, "app-a", "demo", "t0"⟩], DEFAULT_PORT_RANGE⟩

/-- Claim C3 counterexample: starting from an invariant-respecting state in
which `app-a` already holds port 10005, the single call
`allocatePort("app-a", "demo", 10010)` (preferred port in range, unallocated,
OS-free) grants 10010 as well, leaving TWO allocations owned by `app-a` — the
allocation table does not contain at most one entry per appId after every
`allocatePort` call, refuting the claim as stated. -/
theorem c3_counterexample :
    PortInvariant exampleHeldState ∧
    (allocatePort exampleHeldState (fun _ => true) "t1" "app-a" "demo" (some 10010)).2.allocations
      = [⟨10005, "app-a", "demo", "t0"⟩, ⟨10010, "app-a", "demo", "t1"⟩] ∧
    ¬ PortInvariant (allocatePort exampleHeldState (fun _ => true) "t1" "app-a" "demo" (some 10010)).2 :=
  ⟨by decide, rfl, by decide⟩

/-- Claim C3 (amended): every allocator operation preserves the invariant
(at most one allocation per port, at most one per appId) — for `releasePort`,
`setPortRange` and `cleanupAllocations` unconditionally, and for
`allocatePort` provided its preferred-port branch does not freshly grant an
in-range, unallocated, OS-free preferred port to an app that already owns an
allocation (the case the counterexample exhibits). -/
theorem c3_allocator_invariant_preserved
    (st : PortState) (osFree : Nat → Bool) (now appId appName : String)
    (pref : Option Nat) (range : PortRange) (ids : List String)
    (hinv : PortInvariant st)
    (hpref : ∀ p, pref = some p → freshGrantFires st osFree p = true →
      ∀ a ∈ st.allocations, a.appId ≠ appId) :
    PortInvariant (allocatePort st osFree now appId appName pref).2 ∧
    PortInvariant (releasePort st appId) ∧
    PortInvariant (setPortRange st range) ∧
    PortInvariant (cleanupAllocations st ids) :=
  ⟨invAlloc_allocatePort st osFree now appId appName pref hinv hpref,
   InvAlloc.of_sublist (releaseFirst_sublist appId st.allocations) hinv,
   hinv,
   InvAlloc.of_sublist (List.filter_sublist _) hinv⟩

/-- Witness for the amended C3 theorem at a concrete state and call. -/
theorem c3_allocator_invariant_preserved_witness :
    PortInvariant (allocatePort exampleHeldState (fun _ => true) "t1" "app-a" "demo" (some 99999)).2 ∧
    PortInvariant (releasePort exampleHeldState "app-a") ∧
    PortInvariant (setPortRange exampleHeldState ⟨5000, 6000⟩) ∧
    PortInvariant (cleanupAllocations exampleHeldState []) :=
  c3_allocator_invariant_preserved exampleHeldState (fun _ => true) "t1" "app-a" "demo"
    (some 99999) ⟨5000, 6000⟩ [] (by decide)
    (by intro p hp hg; injection hp with h; subst h; exact absurd hg (by decide))

/-! ## Claim C5: allocatePort idempotence per app -/

/-- Reduction of `allocatePort` at a present preferred port. -/
theorem allocatePort_some (st : PortState) (osFree : Nat → Bool)
    (now appId appName : String) (p : Nat) :
    allocatePort st osFree now appId appName (some p)
      = if (match mapGet st.allocations p with | some a => a.appId == appId | none => false : Bool) then
          (.ok p, st)
        else if freshGrantFires st osFree p then
          (.ok p, { st with allocations := mapSet st.allocations ⟨p, appId, appName, now⟩ })
        else allocateFallback st osFree now appId appName := rfl

/-- Under port-uniqueness, `get` on a member's port returns that member. -/
theorem mapGet_of_mem_of_nodup {l : List PortAllocation}
    (hnd : (l.map (·.port)).Nodup) {a : PortAllocation} (ha : a ∈ l) :
    mapGet l a.port = some a := by
  induction l with
  | nil => simp at ha
  | cons b rest ih =>
    rcases List.mem_cons.mp ha with rfl | hmem
    · simp [mapGet]
    · have hne : b.port ≠ a.port := by
        intro he
        have hmm : a.port ∈ rest.map (·.port) := List.mem_map_of_mem _ hmem
        rw [List.map_cons, List.nodup_cons] at hnd
        exact hnd.1 (he ▸ hmm)
      show List.find? (fun c => c.port = a.port) (b :: rest) = some a
      rw [List.find?_cons_of_neg _ (by simpa using hne)]
      exact ih (by rw [List.map_cons, List.nodup_cons] at hnd; exact hnd.2) hmem

/-- When the app's first (and, under the invariant, only) allocation is still
OS-free, the fallback path returns it and leaves the state untouched. -/
theorem allocateFallback_held (st : PortState) (osFree : Nat → Bool)
    (now appId appName : String) (a : PortAllocation)
    (hfind : st.allocations.find? (fun b => b.appId = appId) = some a)
    (hfree : osFree a.port = true) :
    allocateFallback st osFree now appId appName = (.ok a.port, st) := by
  unfold allocateFallback
  rw [evictScan_found osFree appId st.allocations a hfind hfree]

/-- Claim C5 counterexample: `app-a` holds a live allocation (port 10005,
OS-free), yet a subsequent `allocatePort` naming the different, grantable
preferred port 10010 returns 10010 rather than the already-held port —
refuting idempotence for calls with an arbitrary preferredPort argument. -/
theorem c5_counterexample :
    getPortForApp exampleHeldState "app-a" = some 10005 ∧
    (allocatePort exampleHeldState (fun _ => true) "t1" "app-a" "demo" (some 10010)).1
      = .ok 10010 ∧
    (10010 : Nat) ≠ 10005 :=
  ⟨rfl, rfl, by decide⟩

/-- Claim C5 (amended): for an app holding a live allocation `q`, a subsequent
`allocatePort` call returns `q` and leaves the state unchanged, provided the
call's preferredPort (if any) is either `q` itself or not freshly grantable
(allocated, out of range, or not OS-free); a call naming a different grantable
preferred port returns that port instead. -/
theorem c5_allocatePort_idempotent
    (st : PortState) (osFree : Nat → Bool) (now appId appName : String)
    (pref : Option Nat) (q : Nat)
    (hinv : PortInvariant st)
    (hheld : getPortForApp st appId = some q)
    (hfree : osFree q = true)
    (hpref : ∀ p, pref = some p → p ≠ q → freshGrantFires st osFree p = false) :
    allocatePort st osFree now appId appName pref = (.ok q, st) := by
  obtain ⟨a, hfind, hq⟩ : ∃ a, st.allocations.find? (fun b => b.appId = appId) = some a ∧ a.port = q := by
    rcases Option.map_eq_some'.mp hheld with ⟨a, h1, h2⟩
    exact ⟨a, h1, h2⟩
  have hmem : a ∈ st.allocations := List.mem_of_find?_eq_some hfind
  have hpred : a.appId = appId := by simpa using List.find?_some hfind
  have hfreea : osFree a.port = true := by rw [hq]; exact hfree
  cases pref with
  | none =>
    rw [show allocatePort st osFree now appId appName none
        = allocateFallback st osFree now appId appName from rfl]
    rw [allocateFallback_held st osFree now appId appName a hfind hfreea, hq]
  | some p =>
    rw [allocatePort_some]
    by_cases hpq : p = q
    · subst hpq
      have hget : mapGet st.allocations p = some a := by
        rw [← hq]
        exact mapGet_of_mem_of_nodup hinv.1 hmem
      rw [hget]
      simp [hpred]
    · have hbranch1 : (match mapGet st.allocations p with
          | some b => b.appId == appId | none => false : Bool) = false := by
        cases hget : mapGet st.allocations p with
        | none => rfl
        | some b =>
          show (b.appId == appId) = false
          have hbmem : b ∈ st.allocations := List.mem_of_find?_eq_some hget
          have hbport : b.port = p := by simpa using List.find?_some hget
          simp only [beq_eq_false_iff_ne, ne_eq]
          intro hbapp
          have hab : a = b :=
            List.inj_on_of_nodup_map hinv.2 hmem hbmem (hpred.trans hbapp.symm)
          exact hpq (by rw [← hbport, ← hab, hq])
      have hgrant := hpref p rfl hpq
      rw [hbranch1]
      simp only [Bool.false_eq_true, if_false]
      rw [hgrant]
      simp only [Bool.false_eq_true, if_false]
      rw [allocateFallback_held st osFree now appId appName a hfind hfreea, hq]

/-- Witness for the amended C5 theorem: a repeat call with no preferred port
returns the held port 10005 unchanged. -/
theorem c5_allocatePort_idempotent_witness :
    allocatePort exampleHeldState (fun _ => true) "t1" "app-a" "demo" none
      = (.ok 10005, exampleHeldState) :=
  c5_allocatePort_idempotent exampleHeldState (fun _ => true) "t1" "app-a" "demo"
    none 10005 (by decide) rfl rfl (fun p hp _ => Option.noConfusion hp)

/-! ## Claim C6: out-of-range preferred ports -/

/-- The eviction loop is the identity on a map with no allocation owned by the
app. -/
theorem evictScan_no_owner (osFree : Nat → Bool) (appId : String)
    (l : List PortAllocation) (h : ∀ a ∈ l, a.appId ≠ appId) :
    evictScan osFree appId l = (none, l) := by
  induction l with
  | nil => rfl
  | cons a rest ih =>
    have ha : a.appId ≠ appId := h a (List.mem_cons_self a rest)
    have hrest := ih fun b hb => h b (List.mem_cons_of_mem a hb)
    simp [evictScan, ha, hrest]

/-- An out-of-range preferred port never satisfies the fresh-grant condition. -/
theorem freshGrantFires_false_of_out_of_range (st : PortState) (osFree : Nat → Bool)
    {p : Nat} (hout : ¬ (st.portRange.start ≤ p ∧ p ≤ st.portRange.stop)) :
    freshGrantFires st osFree p = false := by
  unfold freshGrantFires
  by_cases h1 : st.portRange.start ≤ p
  · have h2 : ¬ p ≤ st.portRange.stop := fun h2 => hout ⟨h1, h2⟩
    simp [h2]
  · simp [h1]

/-- Claim C6 counterexample: preferred port 99999 is outside the default range
[10000, 20000] and allocated to nobody, yet `allocatePort` does not return the
result of the ascending range scan (which would be 10000, the first free
port): because `app-a` already holds 10005, that held port is returned
instead. -/
theorem c6_counterexample :
    ¬ (exampleHeldState.portRange.start ≤ 99999 ∧ 99999 ≤ exampleHeldState.portRange.stop) ∧
    mapGet exampleHeldState.allocations 99999 = none ∧
    findAvailablePort exampleHeldState (fun _ => true) = some 10000 ∧
    (allocatePort exampleHeldState (fun _ => true) "t1" "app-a" "demo" (some 99999)).1
      = .ok 10005 ∧
    (10005 : Nat) ≠ 10000 :=
  ⟨by decide, rfl, rfl, rfl, by decide⟩

/-- Claim C6 (amended): a preferred port outside the configured range that is
not allocated to the requesting app is ignored — the call is equal to one
with no preferred port — and, when the requesting app holds no allocation at
all, the call performs exactly the range scan: first in-range port that is
unallocated and OS-free, or the PortExhausted error with the map unchanged. -/
theorem c6_out_of_range_preferred_ignored
    (st : PortState) (osFree : Nat → Bool) (now appId appName : String) (p : Nat)
    (hout : ¬ (st.portRange.start ≤ p ∧ p ≤ st.portRange.stop))
    (hnotown : ∀ a, mapGet st.allocations p = some a → a.appId ≠ appId) :
    allocatePort st osFree now appId appName (some p)
      = allocatePort st osFree now appId appName none ∧
    ((∀ a ∈ st.allocations, a.appId ≠ appId) →
      allocatePort st osFree now appId appName (some p)
        = match findAvailablePort st osFree with
          | some q => (.ok q, { st with allocations := st.allocations ++ [⟨q, appId, appName, now⟩] })
          | none => (.error portExhaustedMsg, st)) := by
  have hbranch1 : (match mapGet st.allocations p with
      | some b => b.appId == appId | none => false : Bool) = false := by
    cases hget : mapGet st.allocations p with
    | none => rfl
    | some b =>
      show (b.appId == appId) = false
      simpa using hnotown b hget
  have hignored : allocatePort st osFree now appId appName (some p)
      = allocateFallback st osFree now appId appName := by
    rw [allocatePort_some, hbranch1]
    simp only [Bool.false_eq_true, if_false]
    rw [freshGrantFires_false_of_out_of_range st osFree hout]
    simp only [Bool.false_eq_true, if_false]
  refine ⟨hignored, fun hnoapp => ?_⟩
  rw [hignored]
  unfold allocateFallback
  rw [evictScan_no_owner osFree appId st.allocations hnoapp]
  have hst : ({ st with allocations := st.allocations } : PortState) = st := rfl
  cases hfind : findAvailablePort st osFree with
  | none => simp only [hst, hfind]
  | some q =>
    have hfree := findAvailablePort_free hfind
    have hhas : mapHas st.allocations (PortAllocation.mk q appId appName now).port = false := hfree.1
    simp only [hst, hfind]
    rw [mapSet_of_not_has hhas]

/-- Witness for the amended C6 theorem: with `app-a` holding 10005, a call for
the unrelated app `app-b` naming out-of-range preferred port 99999 equals the
preferred-less call, and (since `app-b` owns nothing) performs the range scan,
granting 10000. -/
theorem c6_out_of_range_preferred_ignored_witness :
    allocatePort exampleHeldState (fun _ => true) "t1" "app-b" "web" (some 99999)
      = allocatePort exampleHeldState (fun _ => true) "t1" "app-b" "web" none ∧
    ((∀ a ∈ exampleHeldState.allocations, a.appId ≠ "app-b") →
      allocatePort exampleHeldState (fun _ => true) "t1" "app-b" "web" (some 99999)
        = match findAvailablePort exampleHeldState (fun _ => true) with
          | some q => (.ok q, { exampleHeldState with
              allocations := exampleHeldState.allocations ++ [⟨q, "app-b", "web", "t1"⟩] })
          | none => (.error portExhaustedMsg, exampleHeldState)) :=
  c6_out_of_range_preferred_ignored exampleHeldState (fun _ => true) "t1" "app-b" "web" 99999
    (by decide)
    (by intro a ha
        rw [show mapGet exampleHeldState.allocations 99999 = none from rfl] at ha
        exact Option.noConfusion ha)

/-! ## Container log codec (DockerService in `port.service.ts`)

`parseDockerLogs` walks a multiplexed Docker log buffer: an 8-byte header per
frame (byte 0 = stream type, 1 = stdout / 2 = stderr; bytes 4-7 = big-endian
u32 payload length), followed by the payload.  Bytes are modelled as `Nat`;
`Buffer.toString('utf-8')` is modelled for single-byte (ASCII) payloads, each
byte becoming one character. -/

inductive StreamTag
  | stdout
  | stderr
deriving DecidableEq, Repr

/-- Interface `LogEntry` (timestamp, message, stream). -/
structure LogEntry where
  timestamp : String
  message : String
  stream : StreamTag
deriving DecidableEq, Repr

/-- JavaScript regex `\s` on the ASCII range: space, tab, line feed, carriage
return, form feed, vertical tab (Unicode space classes are not modelled). -/
def jsWhitespace (c : Char) : Bool :=
  c = Char.ofNat 32 || c = Char.ofNat 9 || c = Char.ofNat 10
    || c = Char.ofNat 13 || c = Char.ofNat 12 || c = Char.ofNat 11

/-- JavaScript `String.prototype.trim()` over the modelled whitespace class. -/
def jsTrim (s : String) : String :=
  String.mk (((s.data.dropWhile jsWhitespace).reverse.dropWhile jsWhitespace).reverse)

/-- JS `.` (no `s` flag) refuses line terminators. -/
def isJsLineBreak (c : Char) : Bool :=
  c = Char.ofNat 10 || c = Char.ofNat 13

/-- Exactly `n` decimal digits, returning them and the remainder. -/
def takeDigits : Nat → List Char → Option (List Char × List Char)
  | 0, cs => some ([], cs)
  | _ + 1, [] => none
  | n + 1, c :: cs =>
    if c.isDigit then
      match takeDigits n cs with
      | some (ds, rest) => some (c :: ds, rest)
      | none => none
    else none

/-- One fixed character. -/
def expectChar (ch : Char) : List Char → Option (List Char)
  | [] => none
  | c :: cs => if c = ch then some cs else none

/-- The timestamp regex of `parseLogLine`:
`^(\d{4}-\d{2}-\d{2}T\d{2}:\d{2}:\d{2}(?:\.\d+)?Z?)\s+(.*)$`.
Returns the captured timestamp and message when the (already trimmed) line
matches.  The digit groups are fixed-width, the fractional part requires at
least one digit after the dot, `Z` and the whitespace run are greedy, and the
trailing `(.*)$` forbids line terminators in the message. -/
def matchTimestamp (s : String) : Option (String × String) := do
  let cs0 := s.data
  let (d1, cs1) ← takeDigits 4 cs0
  let cs2 ← expectChar (Char.ofNat 45) cs1
  let (d2, cs3) ← takeDigits 2 cs2
  let cs4 ← expectChar (Char.ofNat 45) cs3
  let (d3, cs5) ← takeDigits 2 cs4
  let cs6 ← expectChar (Char.ofNat 84) cs5
  let (d4, cs7) ← takeDigits 2 cs6
  let cs8 ← expectChar (Char.ofNat 58) cs7
  let (d5, cs9) ← takeDigits 2 cs8
  let cs10 ← expectChar (Char.ofNat 58) cs9
  let (d6, cs11) ← takeDigits 2 cs10
  let (frac, cs12) ←
    match cs11 with
    | c :: rest =>
      if c = Char.ofNat 46 then
        match rest.takeWhile Char.isDigit with
        | [] => none
        | ds => some (c :: ds, rest.dropWhile Char.isDigit)
      else some (([] : List Char), cs11)
    | [] => some (([] : List Char), cs11)
  let (zpart, cs13) :=
    match cs12 with
    | c :: rest => if c = Char.ofNat 90 then ([c], rest) else (([] : List Char), cs12)
    | [] => (([] : List Char), cs12)
  let ws := cs13.takeWhile jsWhitespace
  let restCs := cs13.dropWhile jsWhitespace
  if ws.isEmpty then none
  else if restCs.any isJsLineBreak then none
  else
    some (String.mk (d1 ++ Char.ofNat 45 :: d2 ++ Char.ofNat 45 :: d3
        ++ Char.ofNat 84 :: d4 ++ Char.ofNat 58 :: d5 ++ Char.ofNat 58 :: d6
        ++ frac ++ zpart),
      String.mk restCs)

/-- `parseLogLine(line, defaultStream)`: trim; drop empty lines; split off a
leading ISO-8601 timestamp when present, otherwise substitute the current
time (the explicit `now` parameter). -/
def parseLogLine (now : String) (line : String) (defaultStream : StreamTag) :
    Option LogEntry :=
  let trimmedLine := jsTrim line
  if trimmedLine = "" then none
  else
    match matchTimestamp trimmedLine with
    | some (ts, msg) => some ⟨ts, msg, defaultStream⟩
    | none => some ⟨now, trimmedLine, defaultStream⟩

/-- `buffer.readUInt32BE`. -/
def readUInt32BE (b0 b1 b2 b3 : Nat) : Nat :=
  ((b0 * 256 + b1) * 256 + b2) * 256 + b3

/-- `Buffer.toString('utf-8')`, modelled for single-byte (ASCII) payloads. -/
def bytesToString (bs : List Nat) : String :=
  String.mk (bs.map Char.ofNat)

/-- The frame-walking loop of `parseDockerLogs`, with an explicit fuel bound
on the number of iterations.  Each iteration consumes `8 + size ≥ 8` bytes,
so fuel equal to the buffer length can never run out before the loop stops on
its own; fuel only makes the recursion structural.  A frame is processed only
when its full 8-byte header and `size`-byte payload are present; any trailing
incomplete frame is discarded (`break`). -/
def parseFramesFuel (now : String) : Nat → List Nat → List LogEntry
  | 0, _ => []
  | fuel + 1, t0 :: _ :: _ :: _ :: s0 :: s1 :: s2 :: s3 :: rest =>
    let size := readUInt32BE s0 s1 s2 s3
    if size ≤ rest.length then
      (match parseLogLine now (bytesToString (rest.take size))
          (if t0 = 1 then StreamTag.stdout else StreamTag.stderr) with
       | some e => [e]
       | none => []) ++ parseFramesFuel now fuel (rest.drop size)
    else []
  | _ + 1, _ => []

/-- `parseDockerLogs(buffer)` on a `Buffer` input. -/
def parseDockerLogs (now : String) (buffer : List Nat) : List LogEntry :=
  parseFramesFuel now buffer.length buffer

/-- Split a character list on a separator character (JS `split`). -/
def splitOnChar (sep : Char) : List Char → List (List Char)
  | [] => [[]]
  | c :: cs =>
    match splitOnChar sep cs with
    | [] => [[c]]
    | h :: t => if c = sep then [] :: h :: t else (c :: h) :: t

/-- `parseLogsString(logsStr)`: the string-input fallback of
`parseDockerLogs` — newline-split, drop blank lines, parse each line with
default stream stdout. -/
def parseLogsString (now : String) (logsStr : String) : List LogEntry :=
  (((splitOnChar (Char.ofNat 10) logsStr.data).map String.mk).filter
      fun line => jsTrim line ≠ "").filterMap
    fun line => parseLogLine now line StreamTag.stdout

/-- `demultiplexDockerStream(chunk)`: per-chunk call of `parseDockerLogs`;
no state is carried between chunks. -/
def demultiplexDockerStream (now : String) (chunk : List Nat) : List LogEntry :=
  parseDockerLogs now chunk

/-! ## Claim C2: wire-format round-trip -/

/-- Big-endian u32 of the wire format (bytes 4-7 of a frame header). -/
def be32 (n : Nat) : List Nat :=
  [n / 2 ^ 24 % 256, n / 2 ^ 16 % 256, n / 2 ^ 8 % 256, n % 256]

/-- One encoded frame of the multiplexed wire format: byte 0 the stream tag,
bytes 1-3 zero, bytes 4-7 the big-endian payload length, then the payload. -/
def encodeFrame (tag : Nat) (payload : List Nat) : List Nat :=
  tag :: 0 :: 0 :: 0 :: be32 payload.length ++ payload

/-- A sequence of frames, encoded back to back. -/
def encodeFrames (frames : List (Nat × List Nat)) : List Nat :=
  (frames.map fun f => encodeFrame f.1 f.2).flatten

/-- ASCII bytes of a string. -/
def strBytes (s : String) : List Nat :=
  s.data.map Char.toNat

/-- The two-frame input of the C2 analysis: stdout "hello", stderr "err". -/
def c2Encoded : List Nat :=
  encodeFrames [(1, strBytes "hello"), (2, strBytes "err")]

/-- Claim C2: decoding the full 24-byte encoding reproduces both payloads and
stream tags in order, but splitting the same bytes into two chunks at byte 20
(mid-way through the second frame) and decoding each chunk separately — as
the streaming path `demultiplexDockerStream` does — silently drops the
second frame: the partial frame at the end of chunk 1 is discarded rather
than buffered, and chunk 2 alone is headerless garbage.  This refutes the
round-trip claim for decoding split across calls at arbitrary boundaries. -/
theorem c2_split_decode_drops_frames :
    parseDockerLogs "T0" c2Encoded
      = [⟨"T0", "hello", StreamTag.stdout⟩, ⟨"T0", "err", StreamTag.stderr⟩] ∧
    c2Encoded.length = 24 ∧
    demultiplexDockerStream "T0" (c2Encoded.take 20)
      = [⟨"T0", "hello", StreamTag.stdout⟩] ∧
    demultiplexDockerStream "T0" (c2Encoded.drop 20) = [] :=
  ⟨rfl, rfl, rfl, rfl⟩

/-! ## Git configuration and clone-URL construction (`app.service.ts`) -/

inductive GitProvider
  | github
  | gitlab
  | bitbucket
  | other
deriving DecidableEq, Repr

inductive GitAuthMethod
  | none
  | token
  | ssh
  | username_password
deriving DecidableEq, Repr

/-- Interface `GitConfig` (the `sshKeyPath` field, unused by the embedded
functions, is omitted). -/
structure GitConfig where
  url : String
  branch : String
  provider : GitProvider
  isPrivate : Bool
  authMethod : GitAuthMethod
  accessToken : Option String
  username : Option String
  password : Option String
  sshPrivateKey : Option String
deriving DecidableEq, Repr

/-- JavaScript truthiness of an optional string field: present and
non-empty. -/
def truthy (o : Option String) : Bool :=
  o.getD "" != ""

/-- The fields of a WHATWG `URL` object that `buildGitCloneUrl` touches. -/
structure UrlObj where
  scheme : String
  username : String
  password : String
  host : String
  path : String
deriving DecidableEq, Repr

/-- Character-list test: does the second list start with the first? -/
def startsWithChars : List Char → List Char → Bool
  | [], _ => true
  | _ :: _, [] => false
  | p :: ps, c :: cs => p = c && startsWithChars ps cs

/-- Character-list substring test (JS `String.prototype.includes`). -/
def containsChars (pat : List Char) : List Char → Bool
  | [] => startsWithChars pat []
  | c :: cs => startsWithChars pat (c :: cs) || containsChars pat cs

/-- `s.includes(pat)`. -/
def containsStr (s pat : String) : Bool :=
  containsChars pat.data s.data

/-- `s.startsWith(pat)`. -/
def strStartsWith (s pat : String) : Bool :=
  startsWithChars pat.data s.data

/-- Split a character list at the first occurrence of `pat`, returning the
parts before and after it; `none` when `pat` does not occur. -/
def splitFirst (pat : List Char) : List Char → Option (List Char × List Char)
  | [] => if pat.isEmpty then some ([], []) else Option.none
  | c :: cs =>
    if startsWithChars pat (c :: cs) then some ([], (c :: cs).drop pat.length)
    else
      match splitFirst pat cs with
      | some r => some (c :: r.1, r.2)
      | Option.none => Option.none

/-- `new URL(s)`, modelled for URLs of the shape `scheme://host/path` with no
userinfo, port, query or fragment (the shapes the clone-URL builder receives):
the host is everything between the scheme separator and the first slash.
`none` models the thrown TypeError caught by the source's `catch` branch. -/
def parseHttpUrl (s : String) : Option UrlObj :=
  match splitFirst ("://".data) s.data with
  | Option.none => Option.none
  | some r =>
    if r.1.isEmpty ∨ r.2.isEmpty then Option.none
    else
      if (r.2.takeWhile fun c => c ≠ Char.ofNat 47).isEmpty then Option.none
      else
        some ⟨String.mk r.1, "", "", String.mk (r.2.takeWhile fun c => c ≠ Char.ofNat 47),
          String.mk (((r.2.dropWhile fun c => c ≠ Char.ofNat 47).drop 1))⟩

/-- `URL.prototype.toString` on the modelled fields. -/
def urlToString (u : UrlObj) : String :=
  let userinfo :=
    if u.username = "" ∧ u.password = "" then ""
    else u.username ++ (if u.password = "" then "" else ":" ++ u.password) ++ "@"
  u.scheme ++ "://" ++ userinfo ++ u.host ++ "/" ++ u.path

/-- Unreserved characters of `encodeURIComponent`: letters, digits, and
`- _ . ! ~ * ( )` plus the apostrophe (code point 39). -/
def uriUnreserved (c : Char) : Bool :=
  c.isAlpha || c.isDigit || c = Char.ofNat 45 || c = Char.ofNat 95 || c = Char.ofNat 46
    || c = Char.ofNat 33 || c = Char.ofNat 126 || c = Char.ofNat 42 || c = Char.ofNat 39
    || c = Char.ofNat 40 || c = Char.ofNat 41

/-- Upper-case hexadecimal digit. -/
def hexDigitChar (n : Nat) : Char :=
  if n < 10 then Char.ofNat (48 + n) else Char.ofNat (55 + n)

/-- `encodeURIComponent`: unreserved characters pass through, everything else
is percent-encoded byte-wise from its UTF-8 encoding. -/
def encodeURIComponent (s : String) : String :=
  String.mk <| s.data.flatMap fun c =>
    if uriUnreserved c then [c]
    else
      (String.toUTF8 (String.mk [c])).toList.flatMap fun b =>
        [Char.ofNat 37, hexDigitChar (b.toNat / 16), hexDigitChar (b.toNat % 16)]

/-- The rewrite of the `ssh` branch: the regex matching
`https://<host>/<rest>` at the URL's leading `https://`: a non-empty host up
to the first slash, the slash, then at least one character; the second
capture runs greedily up to the next line terminator (JS dot) or the end. -/
def sshRewrite (url : String) : Option String :=
  let restCs := url.data.drop 8
  let hostCs := restCs.takeWhile fun c => c ≠ Char.ofNat 47
  let afterCs := (restCs.dropWhile fun c => c ≠ Char.ofNat 47).drop 1
  let tailCs := afterCs.takeWhile fun c => !isJsLineBreak c
  if hostCs ≠ [] ∧ restCs.any (fun c => c = Char.ofNat 47) ∧ tailCs ≠ [] then
    some ("git@" ++ String.mk hostCs ++ ":" ++ String.mk tailCs)
  else Option.none

/-- The credential embedding performed by `buildGitCloneUrl` on the parsed
`URL` object, for the non-`none`, non-`ssh` methods: token per provider, or
URL-encoded username/password, or unchanged when the method-specific secrets
are missing. -/
def applyAuthToUrl (git : GitConfig) (u : UrlObj) : UrlObj :=
  if git.authMethod = GitAuthMethod.token ∧ truthy git.accessToken then
    match git.provider with
    | GitProvider.gitlab =>
      { u with username := "oauth2", password := git.accessToken.getD "" }
    | GitProvider.github =>
      { u with username := git.accessToken.getD "", password := "x-oauth-basic" }
    | GitProvider.bitbucket =>
      { u with username := "x-token-auth", password := git.accessToken.getD "" }
    | GitProvider.other =>
      { u with username := git.accessToken.getD "" }
  else if git.authMethod = GitAuthMethod.username_password
      ∧ truthy git.username ∧ truthy git.password then
    { u with username := encodeURIComponent (git.username.getD ""),
             password := encodeURIComponent (git.password.getD "") }
  else u

/-- `buildGitCloneUrl(git)` from `app.service.ts`. -/
def buildGitCloneUrl (git : GitConfig) : String :=
  if git.isPrivate = false ∨ git.authMethod = GitAuthMethod.none then git.url
  else if git.authMethod = GitAuthMethod.ssh then
    if strStartsWith git.url "https://" then
      match sshRewrite git.url with
      | some s => s
      | Option.none => git.url
    else git.url
  else
    match parseHttpUrl git.url with
    | Option.none => git.url
    | some u => urlToString (applyAuthToUrl git u)

/-! ## Claim C7: token userinfo per provider -/

/-- The spec's description of the token userinfo, per provider (§4.2): this
definition follows the specification text and is compared against the
source-derived `buildGitCloneUrl`. -/
def specTokenUserinfo : GitProvider → String → String
  | GitProvider.github, tok => tok ++ ":x-oauth-basic"
  | GitProvider.gitlab, tok => "oauth2:" ++ tok
  | GitProvider.bitbucket, tok => "x-token-auth:" ++ tok
  | GitProvider.other, tok => tok

/-- Reduction of `buildGitCloneUrl` for a private, non-`none`, non-`ssh`
config whose URL parses. -/
theorem buildGitCloneUrl_parse_some (git : GitConfig) (u : UrlObj)
    (hc1 : ¬ (git.isPrivate = false ∨ git.authMethod = GitAuthMethod.none))
    (hssh : ¬ git.authMethod = GitAuthMethod.ssh)
    (hparse : parseHttpUrl git.url = some u) :
    buildGitCloneUrl git = urlToString (applyAuthToUrl git u) := by
  unfold buildGitCloneUrl
  rw [if_neg hc1, if_neg hssh, hparse]

/-- Claim C7: for a private, token-authenticated config with a non-empty
token over an `https://host/path` URL, `buildGitCloneUrl` embeds the
provider-specific userinfo (GitHub `token:x-oauth-basic`, GitLab
`oauth2:token`, Bitbucket `x-token-auth:token`, other `token`); for a public
config or `authMethod` none it returns the URL unchanged. -/
theorem c7_buildGitCloneUrl_token_and_public :
    (∀ (git : GitConfig) (host pathStr tok : String),
      parseHttpUrl git.url = some ⟨"https", "", "", host, pathStr⟩ →
      git.isPrivate = true →
      git.authMethod = GitAuthMethod.token →
      git.accessToken = some tok →
      tok ≠ "" →
      buildGitCloneUrl git
        = "https://" ++ specTokenUserinfo git.provider tok ++ "@" ++ host ++ "/" ++ pathStr) ∧
    (∀ git : GitConfig, git.isPrivate = false ∨ git.authMethod = GitAuthMethod.none →
      buildGitCloneUrl git = git.url) := by
  constructor
  · intro git host pathStr tok hparse hpriv hmeth htok hne
    have hc1 : ¬ (git.isPrivate = false ∨ git.authMethod = GitAuthMethod.none) := by
      rintro (h | h)
      · rw [hpriv] at h; exact Bool.noConfusion h
      · rw [hmeth] at h; cases h
    rw [buildGitCloneUrl_parse_some git _ hc1 (by rw [hmeth]; intro h; cases h) hparse]
    have htruthy : truthy git.accessToken = true := by
      rw [htok]; simpa [truthy] using hne
    unfold applyAuthToUrl
    rw [if_pos ⟨hmeth, htruthy⟩]
    have hgetD : git.accessToken.getD "" = tok := by rw [htok]; rfl
    cases hprov : git.provider with
    | github =>
      rw [hgetD]
      apply String.ext
      simp [urlToString, specTokenUserinfo, String.data_append]
    | gitlab =>
      rw [hgetD]
      apply String.ext
      simp [urlToString, specTokenUserinfo, String.data_append, hne]
    | bitbucket =>
      rw [hgetD]
      apply String.ext
      simp [urlToString, specTokenUserinfo, String.data_append, hne]
    | other =>
      rw [hgetD]
      apply String.ext
      simp [urlToString, specTokenUserinfo, String.data_append, hne]
  · intro git h
    unfold buildGitCloneUrl
    rw [if_pos h]

/-- Concrete private GitHub token configuration for the C7 witness. -/
def c7GithubCfg : GitConfig :=
  ⟨"https://github.com/user/repo.git", "main", GitProvider.github, true,
   GitAuthMethod.token, some "TOKEN123", Option.none, Option.none, Option.none⟩

/-- Concrete public configuration for the C7 witness. -/
def c7PublicCfg : GitConfig :=
  ⟨"https://github.com/user/repo.git", "main", GitProvider.github, false,
   GitAuthMethod.none, Option.none, Option.none, Option.none, Option.none⟩

/-- Witness for C7 at concrete GitHub-token and public configurations. -/
theorem c7_buildGitCloneUrl_token_and_public_witness :
    buildGitCloneUrl c7GithubCfg
      = "https://" ++ specTokenUserinfo GitProvider.github "TOKEN123"
          ++ "@" ++ "github.com" ++ "/" ++ "user/repo.git" ∧
    buildGitCloneUrl c7PublicCfg = c7PublicCfg.url :=
  ⟨c7_buildGitCloneUrl_token_and_public.1 c7GithubCfg "github.com" "user/repo.git" "TOKEN123"
     (by decide) rfl rfl rfl (by decide),
   c7_buildGitCloneUrl_token_and_public.2 c7PublicCfg (Or.inl rfl)⟩

/-! ## Claim C1: SSH cleanup on clone exit paths -/

/-- Guard of `executeDeployment` (`app.git?.authMethod === 'ssh' &&
app.git.sshPrivateKey`) and of `setupSshForClone`: a key path is returned —
and the `.ssh` directory with the private key and SSH config written to disk
— exactly when the auth method is `ssh` and a private key is present. -/
def sshSetupProvisions (git : GitConfig) : Bool :=
  git.authMethod == GitAuthMethod.ssh && truthy git.sshPrivateKey

/-- Observable outcome of the clone section of `executeDeployment` for a
Git-configured app. -/
structure CloneSectionResult where
  sshProvisioned : Bool
  cleanupInvoked : Bool
  sshDirRemains : Bool
  cloneFailed : Bool
deriving DecidableEq, Repr

/-- Control flow of the clone section of `executeDeployment`:
`setupSshForClone` provisions the `.ssh` directory when the guard holds; the
`try` block reaches `cleanupSshFiles(app.path)` only after the clone command
and the file moves succeed, and invokes it iff a key path was provisioned;
when the clone command throws (failure or timeout), control jumps to the
`catch` block, which logs the classified error, marks the deployment failed
and returns — `cleanupSshFiles` is never reached on that path, so the
provisioned `.ssh` directory (private key and SSH config) stays on disk. -/
def cloneSection (git : GitConfig) (cloneOk : Bool) : CloneSectionResult :=
  if cloneOk then
    { sshProvisioned := sshSetupProvisions git
      cleanupInvoked := sshSetupProvisions git
      sshDirRemains := false
      cloneFailed := false }
  else
    { sshProvisioned := sshSetupProvisions git
      cleanupInvoked := false
      sshDirRemains := sshSetupProvisions git
      cloneFailed := true }

/-- A private SSH-authenticated Git configuration with a key present. -/
def c1SshCfg : GitConfig :=
  ⟨"git@github.com:user/repo.git", "main", GitProvider.github, true, GitAuthMethod.ssh,
   Option.none, Option.none, Option.none, some "PRIVATE-KEY-PEM"⟩

/-- Claim C1: on the successful clone path the provisioned `.ssh` directory
is cleaned up, but on the clone-failure path (including timeouts) of the same
SSH-provisioned configuration `cleanupSshFiles` is never invoked and the
`.ssh` directory — containing the private key — remains on disk, contradicting
the claim that cleanup runs on every exit path. -/
theorem c1_ssh_cleanup_missing_on_failure :
    (cloneSection c1SshCfg true).sshProvisioned = true ∧
    (cloneSection c1SshCfg true).cleanupInvoked = true ∧
    (cloneSection c1SshCfg false).sshProvisioned = true ∧
    (cloneSection c1SshCfg false).cleanupInvoked = false ∧
    (cloneSection c1SshCfg false).sshDirRemains = true :=
  ⟨rfl, rfl, rfl, rfl, rfl⟩

/-! ## Claim C9: credential masking in deployment logs -/

/-- Apostrophe (code point 39), used in the French error strings. -/
def apos : String := String.mk [Char.ofNat 39]

/-- The clone-error classifier of `executeDeployment`: substring-match the
raw error message into a user-facing cause, falling back to a generic message
that echoes the raw error text verbatim. -/
def classifyCloneError (gitBranch errMsg : String) : String :=
  if containsStr errMsg "Authentication failed" || containsStr errMsg "could not read Username" then
    "Echec d" ++ apos ++ "authentification. Verifiez vos identifiants (token, username/password, ou cle SSH)."
  else if containsStr errMsg "Repository not found" || containsStr errMsg "does not exist" then
    "Repository non trouve. Verifiez l" ++ apos ++ "URL et vos permissions d" ++ apos ++ "acces."
  else if containsStr errMsg "Permission denied" then
    "Permission refusee. Verifiez que le token/credentials a les droits de lecture sur le repository."
  else if containsStr errMsg "Host key verification failed" then
    "Verification de la cle SSH echouee. Verifiez votre cle privee."
  else if containsStr errMsg "Could not resolve host" then
    "Impossible de resoudre l" ++ apos ++ "hote. Verifiez l" ++ apos ++ "URL du repository."
  else if containsStr errMsg "branch" && containsStr errMsg "not found" then
    "Branche \"" ++ gitBranch ++ "\" non trouvee dans le repository."
  else
    "Erreur de clonage: " ++ errMsg

/-- The error log line appended by the clone `catch` block
(`addLog('error', ...)` with the thrown message). -/
def cloneFailureLogLine (gitBranch errMsg : String) : String :=
  "✗ " ++ classifyCloneError gitBranch errMsg

/-- A private GitHub token configuration whose token is the secret under
test. -/
def c9Git : GitConfig :=
  ⟨"https://github.com/user/repo.git", "main", GitProvider.github, true,
   GitAuthMethod.token, some "SECRETTOKEN123", Option.none, Option.none, Option.none⟩

/-- The raw message of the error thrown by a failed
`execAsync(cloneCmd)`: Node's `exec` prefixes the failed command line itself
(`Command failed: <cmd>`), and the command line embeds the credentialed clone
URL. -/
def c9RawError : String :=
  "Command failed: git clone --depth 1 --branch main \"" ++ buildGitCloneUrl c9Git
    ++ "\" \"/var/app/apps/demo/source\""

/-- Claim C9: the clone URL built for the token config embeds the secret; a
clone failure whose raw message matches none of the classified causes takes
the generic `Erreur de clonage` branch, which echoes the raw message — and
with it the secret token — into the deployment's error log line.  The secret
is therefore not masked on every clone-failure path. -/
theorem c9_generic_clone_error_leaks_token :
    containsStr (buildGitCloneUrl c9Git) "SECRETTOKEN123" = true ∧
    classifyCloneError "main" c9RawError = "Erreur de clonage: " ++ c9RawError ∧
    containsStr (cloneFailureLogLine "main" c9RawError) "SECRETTOKEN123" = true :=
  ⟨rfl, rfl, rfl⟩

/-! ## Claim C4: deployment status state machine -/

/-- `DeploymentStatus` from the backend types. -/
inductive DeploymentStatus
  | pending
  | cloning
  | building
  | starting
  | success
  | failed
deriving DecidableEq, Repr

/-- Position along the forward chain pending → cloning → building → starting
→ success. -/
def statusRank : DeploymentStatus → Nat
  | DeploymentStatus.pending => 0
  | DeploymentStatus.cloning => 1
  | DeploymentStatus.building => 2
  | DeploymentStatus.starting => 3
  | DeploymentStatus.success => 4
  | DeploymentStatus.failed => 5

def isTerminalStatus : DeploymentStatus → Bool
  | DeploymentStatus.success => true
  | DeploymentStatus.failed => true
  | _ => false

/-- One legal transition per the claim: never out of a terminal status;
`failed` from any non-terminal status; otherwise strictly forward along the
chain. -/
def validTransition (a b : DeploymentStatus) : Bool :=
  !isTerminalStatus a
    && (b == DeploymentStatus.failed
        || (b != DeploymentStatus.failed && statusRank a < statusRank b))

/-- Every consecutive pair of the list is a legal transition. -/
def forwardChain : List DeploymentStatus → Bool
  | a :: b :: rest => validTransition a b && forwardChain (b :: rest)
  | _ => true

/-- The sequence of statuses assigned to one Deployment record by `deployApp`
(which creates it as `pending`) followed by the async `executeDeployment`,
as a function of the outcome of each fallible step:
`dockerOk` — the docker/compose preflight; `hasGit` — the app has a Git
source (`app.git?.url || app.gitUrl`), otherwise the `cloning` status is
never assigned; `cloneOk` — SSH setup, `git clone` (including its timeout)
and the file moves; `composeFileExists` / `dockerfileExists` — the on-disk
file checks; `buildOk` — the compose build; `startOk` — compose down/up and
the container-id query.  Every failure runs `setError`, which assigns
`failed` and ends the pipeline; full success ends in `success`. -/
def deploymentStatusTrace
    (dockerOk hasGit cloneOk composeFileExists dockerfileExists buildOk startOk : Bool) :
    List DeploymentStatus :=
  let t0 := [DeploymentStatus.pending]
  if !dockerOk then t0 ++ [DeploymentStatus.failed]
  else
    let t1 := if hasGit then t0 ++ [DeploymentStatus.cloning] else t0
    if hasGit && !cloneOk then t1 ++ [DeploymentStatus.failed]
    else if !composeFileExists then t1 ++ [DeploymentStatus.failed]
    else if !dockerfileExists then t1 ++ [DeploymentStatus.failed]
    else
      let t2 := t1 ++ [DeploymentStatus.building]
      if !buildOk then t2 ++ [DeploymentStatus.failed]
      else
        let t3 := t2 ++ [DeploymentStatus.starting]
        if !startOk then t3 ++ [DeploymentStatus.failed]
        else t3 ++ [DeploymentStatus.success]

/-- Claim C4: across every combination of step outcomes, the status sequence
of a deployment starts at `pending`, every consecutive transition is strictly
forward with `failed` reachable only from a non-terminal status, and no
transition ever leaves a terminal status. -/
theorem c4_deployment_status_forward :
    ∀ dockerOk hasGit cloneOk composeFileExists dockerfileExists buildOk startOk : Bool,
      (deploymentStatusTrace dockerOk hasGit cloneOk composeFileExists
          dockerfileExists buildOk startOk).head? = some DeploymentStatus.pending ∧
      forwardChain (deploymentStatusTrace dockerOk hasGit cloneOk composeFileExists
          dockerfileExists buildOk startOk) = true := by
  decide

/-! ## App records, deletion (claim C8) and creation (claim C10) -/

/-- `AppStatus` from the backend types. -/
inductive AppStatus
  | pending
  | building
  | deploying
  | running
  | stopped
  | failed
  | error
deriving DecidableEq, Repr

/-- Slice of `AppConfig` used by the embedded CRUD operations. -/
structure AppRec where
  id : String
  name : String
  status : AppStatus
  path : String
deriving DecidableEq, Repr

/-- State touched by `deleteApp`: the apps map, the port allocator, and the
set of existing working directories. -/
structure EngineState where
  apps : List AppRec
  ports : PortState
  dirs : List String
deriving DecidableEq, Repr

/-- Outcomes of the external compose-tool invocations during deletion:
`stopOk` for the `compose stop` issued by `stopApp`, `downOk` for the
best-effort `compose down` (whose outcome `deleteApp` swallows). -/
structure ComposeBehavior where
  stopOk : Bool
  downOk : Bool
deriving DecidableEq, Repr

/-- `stopApp(appId)`: throws when the app is unknown or when `compose stop`
fails (before any state change); on success marks the app `stopped`. -/
def stopApp (st : EngineState) (beh : ComposeBehavior) (appId : String) :
    Except String Unit × EngineState :=
  match st.apps.find? (fun a => a.id = appId) with
  | Option.none => (.error ("Application non trouvee: " ++ appId), st)
  | some _ =>
    if beh.stopOk then
      (.ok (), { st with apps := st.apps.map fun a =>
          if a.id = appId then { a with status := AppStatus.stopped } else a })
    else (.error "compose stop failed", st)

/-- `deleteApp(appId)`: for a `running` app first `await this.stopApp(appId)`
— not wrapped in try/catch, so a stop failure propagates and aborts deletion
before the port release and directory removal; then the best-effort
`compose down` (errors swallowed, no modelled state change), `releasePort`,
removal of the working directory, and removal of the record. -/
def deleteApp (st : EngineState) (beh : ComposeBehavior) (appId : String) :
    Except String Unit × EngineState :=
  match st.apps.find? (fun a => a.id = appId) with
  | Option.none => (.error ("Application non trouvee: " ++ appId), st)
  | some app =>
    match (if app.status = AppStatus.running then stopApp st beh appId else (.ok (), st)) with
    | (.error e, st1) => (.error e, st1)
    | (.ok _, st1) =>
      let st2 := { st1 with ports := releasePort st1.ports appId }
      let st3 := { st2 with dirs := st2.dirs.filter fun d => d ≠ app.path }
      (.ok (), { st3 with apps := st3.apps.filter fun a => a.id ≠ appId })

/-- Auxiliary: after `releaseFirst`, a list with unique owners has no entry
owned by the released app. -/
theorem find?_releaseFirst_none (appId : String) (l : List PortAllocation)
    (hnd : (l.map (·.appId)).Nodup) :
    List.find? (fun a => a.appId = appId) (releaseFirst appId l) = Option.none := by
  induction l with
  | nil => rfl
  | cons a rest ih =>
    rw [List.map_cons, List.nodup_cons] at hnd
    by_cases h : a.appId = appId
    · rw [show releaseFirst appId (a :: rest) = rest by simp [releaseFirst, h]]
      rw [List.find?_eq_none]
      intro b hb hbeq
      have hb2 : b.appId = appId := by simpa using hbeq
      refine hnd.1 ?_
      rw [h, ← hb2]
      exact List.mem_map_of_mem _ hb
    · rw [show releaseFirst appId (a :: rest) = a :: releaseFirst appId rest by
        simp [releaseFirst, h]]
      rw [List.find?_cons_of_neg _ (by simpa using h)]
      exact ih hnd.2

/-- After `releasePort`, an app that owned at most one allocation owns
none. -/
theorem getPortForApp_releasePort (st : PortState) (appId : String)
    (hnd : (st.allocations.map (·.appId)).Nodup) :
    getPortForApp (releasePort st appId) appId = Option.none := by
  show (List.find? (fun a => a.appId = appId) (releaseFirst appId st.allocations)).map (·.port)
    = Option.none
  rw [find?_releaseFirst_none appId st.allocations hnd]
  rfl

/-- The running app, its port allocation and its directory, used by the C8
analysis. -/
def c8App : AppRec := ⟨"app-1", "demo", AppStatus.running, "/var/app/apps/demo"⟩

def c8State : EngineState :=
  ⟨[c8App], ⟨[⟨10000, "app-1", "demo", "t0"⟩], DEFAULT_PORT_RANGE⟩, ["/var/app/apps/demo"]⟩

/-- Claim C8 counterexample: deleting a running application whose container
stop call errors aborts the whole deletion — the error propagates, the port
allocation is still held and the working directory still exists, refuting
best-effort deletion with respect to the container stop. -/
theorem c8_counterexample :
    (deleteApp c8State ⟨false, true⟩ "app-1").1 = .error "compose stop failed" ∧
    (deleteApp c8State ⟨false, true⟩ "app-1").2 = c8State ∧
    getPortForApp (deleteApp c8State ⟨false, true⟩ "app-1").2.ports "app-1" = some 10000 ∧
    "/var/app/apps/demo" ∈ (deleteApp c8State ⟨false, true⟩ "app-1").2.dirs :=
  ⟨rfl, rfl, rfl, by decide⟩

/-- Reduction of `stopApp` when the app exists. -/
theorem stopApp_found (st : EngineState) (beh : ComposeBehavior) (appId : String)
    (app : AppRec) (hfind : st.apps.find? (fun a => a.id = appId) = some app) :
    stopApp st beh appId =
      if beh.stopOk then
        (.ok (), { st with apps := st.apps.map fun a =>
            if a.id = appId then { a with status := AppStatus.stopped } else a })
      else (.error "compose stop failed", st) := by
  unfold stopApp
  rw [hfind]

/-- Reduction of `deleteApp` when the app exists. -/
theorem deleteApp_found (st : EngineState) (beh : ComposeBehavior) (appId : String)
    (app : AppRec) (hfind : st.apps.find? (fun a => a.id = appId) = some app) :
    deleteApp st beh appId =
      match (if app.status = AppStatus.running then stopApp st beh appId else (.ok (), st)) with
      | (.error e, st1) => (.error e, st1)
      | (.ok _, st1) =>
        (.ok (), { apps := st1.apps.filter fun a => a.id ≠ appId,
                   ports := releasePort st1.ports appId,
                   dirs := st1.dirs.filter fun d => d ≠ app.path }) := by
  unfold deleteApp
  rw [hfind]

/-- Claim C8 (amended): deleting an application stops its container when
running, and — provided that stop succeeds (or the app is not running) —
releases the app's port, removes its working directory and removes the
record, regardless of whether the best-effort `compose down` teardown errors;
an error from the container stop call itself aborts deletion first. -/
theorem c8_deleteApp_best_effort
    (st : EngineState) (beh : ComposeBehavior) (appId : String) (app : AppRec)
    (hfind : st.apps.find? (fun a => a.id = appId) = some app)
    (hstop : app.status = AppStatus.running → beh.stopOk = true)
    (hports : (st.ports.allocations.map (·.appId)).Nodup) :
    (deleteApp st beh appId).1 = .ok () ∧
    (∀ a ∈ (deleteApp st beh appId).2.apps, a.id ≠ appId) ∧
    getPortForApp (deleteApp st beh appId).2.ports appId = Option.none ∧
    app.path ∉ (deleteApp st beh appId).2.dirs := by
  rw [deleteApp_found st beh appId app hfind]
  by_cases hrun : app.status = AppStatus.running
  · rw [if_pos hrun, stopApp_found st beh appId app hfind, if_pos (hstop hrun)]
    refine ⟨rfl, ?_, ?_, ?_⟩
    · intro a ha
      simpa using (List.mem_filter.mp ha).2
    · exact getPortForApp_releasePort st.ports appId hports
    · intro hmem
      simpa using (List.mem_filter.mp hmem).2
  · rw [if_neg hrun]
    refine ⟨rfl, ?_, ?_, ?_⟩
    · intro a ha
      simpa using (List.mem_filter.mp ha).2
    · exact getPortForApp_releasePort st.ports appId hports
    · intro hmem
      simpa using (List.mem_filter.mp hmem).2

/-- Witness for the amended C8 theorem: deletion of the running app with a
successful stop and a failing `compose down` still releases the port and
removes the directory and record. -/
theorem c8_deleteApp_best_effort_witness :
    (deleteApp c8State ⟨true, false⟩ "app-1").1 = .ok () ∧
    (∀ a ∈ (deleteApp c8State ⟨true, false⟩ "app-1").2.apps, a.id ≠ "app-1") ∧
    getPortForApp (deleteApp c8State ⟨true, false⟩ "app-1").2.ports "app-1" = Option.none ∧
    c8App.path ∉ (deleteApp c8State ⟨true, false⟩ "app-1").2.dirs :=
  c8_deleteApp_best_effort c8State ⟨true, false⟩ "app-1" c8App rfl (fun _ => rfl) (by decide)

/-! ## Claim C10: duplicate-name rejection after port allocation -/

/-- ASCII lower-casing (JS `toLowerCase` on the names accepted by the name
regex). -/
def strToLower (s : String) : String :=
  String.mk (s.data.map Char.toLower)

/-- `/^[a-zA-Z0-9-_]+$/.test(name)`. -/
def nameCharsValid (name : String) : Bool :=
  !name.data.isEmpty
    && name.data.all fun c =>
        c.isAlpha || c.isDigit || c = Char.ofNat 45 || c = Char.ofNat 95

/-- `name.toLowerCase().replace(/[^a-z0-9]/g, '-')`. -/
def appDirName (name : String) : String :=
  String.mk ((strToLower name).data.map fun c =>
    if c.isLower || c.isDigit then c else Char.ofNat 45)

/-- `CreateAppRequest`, restricted to a request without a Git section. -/
structure CreateAppReq where
  name : String
  type : String
deriving DecidableEq, Repr

/-- `createApp(request)` for a request without a Git section, up to the
steps the claim concerns, in source order: name length check, name charset
check (the template lookup never fails for a valid `AppType`, and a git-less
request skips the Git block), then `allocatePort(id, request.name)` for the
freshly generated id (`generateId()` is the `freshId` parameter; the
allocator persists its table inside `allocatePort`), then the
case-insensitive duplicate-name check, which throws without releasing the
just-made allocation.  On the success path the remaining steps add the new
record. -/
def createApp (apps : List AppRec) (ports : PortState) (osFree : Nat → Bool)
    (now freshId : String) (req : CreateAppReq) (appsRoot : String) :
    Except String AppRec × List AppRec × PortState :=
  if req.name.length < 2 then
    (.error ("Le nom de l" ++ apos ++ "application doit contenir au moins 2 caracteres"),
     apps, ports)
  else if !nameCharsValid req.name then
    (.error "Le nom ne peut contenir que des lettres, chiffres, tirets et underscores",
     apps, ports)
  else
    match allocatePort ports osFree now freshId req.name Option.none with
    | (.error e, ports1) => (.error e, apps, ports1)
    | (.ok _, ports1) =>
      if apps.any (fun a => strToLower a.name == strToLower req.name) then
        (.error ("Une application avec le nom \"" ++ req.name ++ "\" existe deja"),
         apps, ports1)
      else
        (.ok ⟨freshId, req.name, AppStatus.pending, appsRoot ++ "/" ++ appDirName req.name⟩,
         apps ++ [⟨freshId, req.name, AppStatus.pending, appsRoot ++ "/" ++ appDirName req.name⟩],
         ports1)

/-- The pre-existing application whose name collides case-insensitively. -/
def c10ExistingApp : AppRec := ⟨"app-old", "Demo", AppStatus.running, "/var/app/apps/demo"⟩

/-- Claim C10: `createApp` with the name `demo`, colliding case-insensitively
with the existing `Demo`, throws the duplicate-name error and adds no
application record — but the port allocated earlier in the same call to the
request's freshly generated id `app-new` remains in the allocator's table
(port 10000, the first free port of the default range). -/
theorem c10_duplicate_name_keeps_allocation :
    (createApp [c10ExistingApp] ⟨[], DEFAULT_PORT_RANGE⟩ (fun _ => true) "t0" "app-new"
        ⟨"demo", "nodejs"⟩ "/var/app/apps").1
      = .error "Une application avec le nom \"demo\" existe deja" ∧
    (createApp [c10ExistingApp] ⟨[], DEFAULT_PORT_RANGE⟩ (fun _ => true) "t0" "app-new"
        ⟨"demo", "nodejs"⟩ "/var/app/apps").2.1 = [c10ExistingApp] ∧
    (createApp [c10ExistingApp] ⟨[], DEFAULT_PORT_RANGE⟩ (fun _ => true) "t0" "app-new"
        ⟨"demo", "nodejs"⟩ "/var/app/apps").2.2.allocations
      = [⟨10000, "app-new", "demo", "t0"⟩] :=
  ⟨rfl, rfl, rfl⟩

end Docktor
